import Mathlib

/-!
Verification of the discrete PID controller and command low-pass pre-filter
described in `content/Control-References/Discrete_Implementation.ipynb`.

The notebook's only executable logic is the pre-filter demonstration loop
(cell 32): coefficients `kmlp`, `kelp` and the recursion
`y[i] = y[i-1]*kmlp + kelp*(x[i] + x[i-1])` seeded with `y[0] = 0`.
Those are embedded directly from the source below (`kmlp`, `kelp`,
`notebookY`).  The DiscretePID controller and the stateful CommandPreFilter
exist in the repository only as difference equations and as the spec's
component design, so they are modelled from the spec (each such definition
says so in its doc comment).  All arithmetic is over `ℚ`, the exact-real
model of the notebook's numeric values.
-/

namespace DiscreteImpl

/-- Pre-filter output coefficient, from notebook cell 32:
`kmlp = (2*tau_n - Ts)/(Ts + 2*tau_n)` (the notebook instantiates
`Ts = 1/10_000`, `tau_n = 0.25`; the formula is kept parametric). -/
def kmlp (Ts tau_n : ℚ) : ℚ := (2 * tau_n - Ts) / (Ts + 2 * tau_n)

/-- Pre-filter input coefficient, from notebook cell 32:
`kelp = Ts/(Ts + 2*tau_n)`. -/
def kelp (Ts tau_n : ℚ) : ℚ := Ts / (Ts + 2 * tau_n)

/-- The notebook's filter loop (cell 32): `y = np.zeros_like(x)`, then for
each index `i`, if `i == 0` the entry is left untouched (`pass`), else
`y[i] = y[i-1]*kmlp + kelp*(x[i] + x[i-1])`.  Embedded as a recursion on
the sample index with the two coefficients abstracted. -/
def notebookY (a b : ℚ) (x : ℕ → ℚ) : ℕ → ℚ
  | 0 => 0
  | i + 1 => notebookY a b x i * a + b * (x (i + 1) + x i)

/-- Pre-filter coefficients `k_yLP`, `k_xLP`. -/
structure PreFilterCoeffs where
  k_yLP : ℚ
  k_xLP : ℚ
deriving DecidableEq

/-- Coefficient computation for the pre-filter, the same formulas as the
notebook's `kmlp`/`kelp`: `k_yLP = (2τ − T)/(T + 2τ)`, `k_xLP = T/(T + 2τ)`. -/
def mkPreFilterCoeffs (tau T : ℚ) : PreFilterCoeffs :=
  ⟨(2 * tau - T) / (T + 2 * tau), T / (T + 2 * tau)⟩

/-- CommandPreFilter runtime state: previous input `x_{n-1}` and previous
output `y_{n-1}`. -/
structure PreFilterState where
  prev_input : ℚ
  prev_output : ℚ
deriving DecidableEq

/-- Modelled from the spec: `CommandPreFilter.update` — the repository has no
stateful filter class, only the notebook's array loop (cell 32) applying the
same recursion.  `y_n = k_yLP*y_{n-1} + k_xLP*(x_n + x_{n-1})`; commit
`x_{n-1} ← x_n`, `y_{n-1} ← y_n`; return `y_n`. -/
def preFilterUpdate (c : PreFilterCoeffs) (st : PreFilterState) (x : ℚ) :
    ℚ × PreFilterState :=
  let y := c.k_yLP * st.prev_output + c.k_xLP * (x + st.prev_input)
  (y, ⟨x, y⟩)

/-- Discrete PID coefficients: proportional gain and the derived discrete
coefficients `k_ei`, `k_md`, `k_ed`, plus the output limit. -/
structure PIDCoeffs where
  kp : ℚ
  k_ei : ℚ
  k_md : ℚ
  k_ed : ℚ
  output_limit : ℚ
deriving DecidableEq

/-- Coefficient computation from the notebook's difference-equation
derivation: `k_ei = ki*T/2`, `k_md = (2 - T*wp)/(T*wp + 2)`,
`k_ed = 2*wp*kd/(T*wp + 2)`. -/
def mkPIDCoeffs (kp ki kd wp T lim : ℚ) : PIDCoeffs :=
  ⟨kp, ki * T / 2, (2 - T * wp) / (T * wp + 2), 2 * wp * kd / (T * wp + 2), lim⟩

/-- DiscretePID runtime state: integral term `m_I`, derivative-filter output
`m_D`, and previous error `e_{n-1}`. -/
structure PIDState where
  integral_term : ℚ
  deriv_term : ℚ
  prev_error : ℚ
deriving DecidableEq

/-- Sign with the documented convention `sign(0) = 0`. -/
def qsign (x : ℚ) : ℚ := if 0 < x then 1 else if x < 0 then -1 else 0

/-- Magnitude, written out executably (equals `|x|`). -/
def qabs (x : ℚ) : ℚ := if x < 0 then -x else x

/-- Derivative difference equation (notebook):
`m_D_n = k_md * m_D_{n-1} + k_ed * (e_n - e_{n-1})`. -/
def mDeriv (c : PIDCoeffs) (st : PIDState) (e : ℚ) : ℚ :=
  c.k_md * st.deriv_term + c.k_ed * (e - st.prev_error)

/-- Tentative output used for the clamp decision:
`m_P + m_I_{n-1} + m_D_n` (last-committed integral state). -/
def mTentative (c : PIDCoeffs) (st : PIDState) (e : ℚ) : ℚ :=
  c.kp * e + st.integral_term + mDeriv c st e

/-- Anti-windup clamp condition (notebook anti-windup cell, with the spec's
documented zero convention): the output is saturating,
`|m_tentative| > output_limit`, and the integral makes it worse,
`sign(e_n) == sign(m_tentative)` where zero never makes it worse. -/
def clampCond (c : PIDCoeffs) (st : PIDState) (e : ℚ) : Prop :=
  c.output_limit < qabs (mTentative c st e) ∧
    qsign e = qsign (mTentative c st e) ∧ qsign e ≠ 0

instance (c : PIDCoeffs) (st : PIDState) (e : ℚ) :
    Decidable (clampCond c st e) := by
  unfold clampCond
  infer_instance

/-- Modelled from the spec: `DiscretePID.update` — the repository states the
difference equations and the clamping rule but contains no executable
controller.  Per call: `m_P = kp*e_n`; `m_D_n = k_md*m_D_{n-1} +
k_ed*(e_n - e_{n-1})`; clamp decision from the tentative output; integral
update `m_I_n = m_I_{n-1} + k_ei*(e_n + e_{n-1})*(1 - clamp)`; output
`m_P + m_I_n + m_D_n` hard-saturated to `[-output_limit, output_limit]`;
commit `e_{n-1} ← e_n`, `m_I_{n-1} ← m_I_n`, `m_D_{n-1} ← m_D_n`. -/
def pidUpdate (c : PIDCoeffs) (st : PIDState) (e : ℚ) : ℚ × PIDState :=
  let mP := c.kp * e
  let mD := mDeriv c st e
  let mI := if clampCond c st e then st.integral_term
            else st.integral_term + c.k_ei * (e + st.prev_error)
  let m := mP + mI + mD
  (max (-c.output_limit) (min c.output_limit m), ⟨mI, mD, e⟩)

/-- State after `n` update calls with the constant error `e`. -/
def pidIterateConst (c : PIDCoeffs) (st : PIDState) (e : ℚ) : ℕ → PIDState
  | 0 => st
  | n + 1 => (pidUpdate c (pidIterateConst c st e n) e).2

/-- Construction failure. -/
inductive ConfigError where
  | invalidConfiguration
deriving DecidableEq

/-- Modelled from the spec: validated construction of the PID controller
coefficients — the notebook computes coefficients with no validation, the
validating constructor exists only in the spec.  Non-positive `T`, `wp` or
`output_limit` is rejected with an invalid-configuration error before any
coefficient is computed. -/
def mkPIDConfig (kp ki kd wp T lim : ℚ) : Except ConfigError PIDCoeffs :=
  if T ≤ 0 ∨ wp ≤ 0 ∨ lim ≤ 0 then .error .invalidConfiguration
  else .ok (mkPIDCoeffs kp ki kd wp T lim)

/-- Modelled from the spec: validated construction of the pre-filter
coefficients.  Non-positive `T` or `τ` is rejected with an
invalid-configuration error before any coefficient is computed. -/
def mkPreFilterConfig (tau T : ℚ) : Except ConfigError PreFilterCoeffs :=
  if T ≤ 0 ∨ tau ≤ 0 then .error .invalidConfiguration
  else .ok (mkPreFilterCoeffs tau T)

/-- C9: for every input sequence `x` (and any coefficients, in particular the
notebook's), the filter loop never applies the recursion at index 0: `y[0]`
keeps its initialized value 0 regardless of `x 0`, and the recursion is first
applied at index 1. -/
theorem notebook_loop_skips_index_zero (a b : ℚ) (x : ℕ → ℚ) :
    notebookY a b x 0 = 0 ∧
      ∀ i, notebookY a b x (i + 1) =
        notebookY a b x i * a + b * (x (i + 1) + x i) :=
  ⟨rfl, fun _ => rfl⟩

/-- C1: one pre-filter update with coefficients built from `(τ, T)` returns
exactly `y_n = k_yLP*y_{n-1} + k_xLP*(x_n + x_{n-1})` with
`k_yLP = (2τ − T)/(T + 2τ)`, `k_xLP = T/(T + 2τ)`, and commits
`x_{n-1} ← x_n`, `y_{n-1} ← y_n`. -/
theorem preFilter_update_formula (tau T x : ℚ) (st : PreFilterState) :
    preFilterUpdate (mkPreFilterCoeffs tau T) st x =
      ((2 * tau - T) / (T + 2 * tau) * st.prev_output
          + T / (T + 2 * tau) * (x + st.prev_input),
        ⟨x, (2 * tau - T) / (T + 2 * tau) * st.prev_output
          + T / (T + 2 * tau) * (x + st.prev_input)⟩) :=
  rfl

/-- C2: for strictly positive `T` and `τ`, the pre-filter coefficients
satisfy the exact unity-DC-gain identity `k_yLP + 2*k_xLP = 1`. -/
theorem preFilter_unity_dc_gain (tau T : ℚ) (hT : 0 < T) (htau : 0 < tau) :
    (mkPreFilterCoeffs tau T).k_yLP + 2 * (mkPreFilterCoeffs tau T).k_xLP = 1 := by
  have hden : T + 2 * tau ≠ 0 := by positivity
  simp only [mkPreFilterCoeffs]
  field_simp
  ring

/-- Witness for C2 at the notebook's values `T = 1/10000`, `τ = 1/4`. -/
theorem preFilter_unity_dc_gain_witness :
    (mkPreFilterCoeffs (1/4) (1/10000)).k_yLP
      + 2 * (mkPreFilterCoeffs (1/4) (1/10000)).k_xLP = 1 :=
  preFilter_unity_dc_gain (1/4) (1/10000) (by norm_num) (by norm_num)

/-- The update always commits the current error as the new previous error. -/
theorem pidUpdate_prev_error (c : PIDCoeffs) (st : PIDState) (e : ℚ) :
    ((pidUpdate c st e).2).prev_error = e :=
  rfl

/-- The committed integral is the frozen or trapezoidal value. -/
theorem pidUpdate_integral (c : PIDCoeffs) (st : PIDState) (e : ℚ) :
    ((pidUpdate c st e).2).integral_term =
      if clampCond c st e then st.integral_term
      else st.integral_term + c.k_ei * (e + st.prev_error) :=
  rfl

/-- The committed derivative term is the difference-equation value. -/
theorem pidUpdate_deriv (c : PIDCoeffs) (st : PIDState) (e : ℚ) :
    ((pidUpdate c st e).2).deriv_term =
      c.k_md * st.deriv_term + c.k_ed * (e - st.prev_error) :=
  rfl

/-- C3: on any tick, if the saturation check and the worsening check both
hold, the committed integral state is exactly unchanged
(`m_I_n = m_I_{n-1}`); otherwise the trapezoidal update
`m_I_n = m_I_{n-1} + k_ei * (e_n + e_{n-1})` is applied. -/
theorem pid_clamp_freezes_integral (c : PIDCoeffs) (st : PIDState) (e : ℚ) :
    (clampCond c st e → ((pidUpdate c st e).2).integral_term = st.integral_term) ∧
      (¬clampCond c st e → ((pidUpdate c st e).2).integral_term =
        st.integral_term + c.k_ei * (e + st.prev_error)) := by
  constructor
  · intro h
    rw [pidUpdate_integral, if_pos h]
  · intro h
    rw [pidUpdate_integral, if_neg h]

/-- Witness for C3: with `kp = 1`, `k_ei = 1`, `output_limit = 1/2`, zero
state and error `1`, the tentative output `1` saturates and shares the sign
of the error, so the integral is frozen; and in the complementary
large-limit configuration the trapezoidal update applies. -/
theorem pid_clamp_freezes_integral_witness :
    ((pidUpdate ⟨1, 1, 0, 0, 1/2⟩ ⟨0, 0, 0⟩ 1).2).integral_term
        = (PIDState.mk 0 0 0).integral_term ∧
      ((pidUpdate ⟨1, 1, 0, 0, 100⟩ ⟨0, 0, 0⟩ 1).2).integral_term
        = (PIDState.mk 0 0 0).integral_term + (1 : ℚ) * (1 + 0) :=
  ⟨(pid_clamp_freezes_integral ⟨1, 1, 0, 0, 1/2⟩ ⟨0, 0, 0⟩ 1).1
      (by norm_num [clampCond, mTentative, mDeriv, qabs, qsign]),
   (pid_clamp_freezes_integral ⟨1, 1, 0, 0, 100⟩ ⟨0, 0, 0⟩ 1).2
      (by norm_num [clampCond, mTentative, mDeriv, qabs, qsign])⟩

/-- C5: from the second call with an unchanged error on, the derivative term
satisfies `m_D_n = k_md * m_D_{n-1}` exactly: under a constant error, every
call after the first multiplies the stored derivative term by `k_md`. -/
theorem pid_deriv_geometric_decay (c : PIDCoeffs) (st : PIDState) (e : ℚ) (n : ℕ) :
    (pidIterateConst c st e (n + 2)).deriv_term =
      c.k_md * (pidIterateConst c st e (n + 1)).deriv_term := by
  have hprev : (pidIterateConst c st e (n + 1)).prev_error = e :=
    pidUpdate_prev_error c (pidIterateConst c st e n) e
  have h := pidUpdate_deriv c (pidIterateConst c st e (n + 1)) e
  rw [hprev] at h
  calc (pidIterateConst c st e (n + 2)).deriv_term
      = c.k_md * (pidIterateConst c st e (n + 1)).deriv_term
          + c.k_ed * (e - e) := h
    _ = c.k_md * (pidIterateConst c st e (n + 1)).deriv_term := by ring

/-- C6: with `kp = 1`, `ki = 0`, `kd = 0`, `T = 1/100`, `output_limit = 100`
(any derivative pole `wp`), a constant error of `5` from zero state makes
every update call return exactly `5`. -/
theorem pid_pure_proportional_constant (wp : ℚ) (n : ℕ) :
    (pidUpdate (mkPIDCoeffs 1 0 0 wp (1/100) 100)
      (pidIterateConst (mkPIDCoeffs 1 0 0 wp (1/100) 100) ⟨0, 0, 0⟩ 5 n) 5).1 = 5 := by
  set c := mkPIDCoeffs 1 0 0 wp (1/100) 100 with hc
  have hkei : c.k_ei = 0 := by simp [hc, mkPIDCoeffs]
  have hked : c.k_ed = 0 := by simp [hc, mkPIDCoeffs]
  have hkp : c.kp = 1 := rfl
  have hlim : c.output_limit = 100 := rfl
  have hzero : ∀ m, (pidIterateConst c ⟨0, 0, 0⟩ 5 m).integral_term = 0 ∧
      (pidIterateConst c ⟨0, 0, 0⟩ 5 m).deriv_term = 0 := by
    intro m
    induction m with
    | zero => exact ⟨rfl, rfl⟩
    | succ k ih =>
      constructor
      · rw [pidIterateConst, pidUpdate_integral, ih.1, hkei]
        split <;> ring
      · rw [pidIterateConst, pidUpdate_deriv, ih.2, hked]
        ring
  set s := pidIterateConst c ⟨0, 0, 0⟩ 5 n with hs
  have hI : s.integral_term = 0 := (hzero n).1
  have hD : s.deriv_term = 0 := (hzero n).2
  have hmd : mDeriv c s 5 = 0 := by
    rw [mDeriv, hD, hked]
    ring
  have hnoclamp : ¬clampCond c s 5 := by
    intro h
    have h1 := h.1
    have hmt : mTentative c s 5 = 5 := by
      rw [mTentative, hmd, hI, hkp]
      ring
    rw [hmt, hlim] at h1
    norm_num [qabs] at h1
  show max (-c.output_limit) (min c.output_limit
      (c.kp * 5 + (if clampCond c s 5 then s.integral_term
        else s.integral_term + c.k_ei * (5 + s.prev_error)) + mDeriv c s 5)) = 5
  rw [if_neg hnoclamp, hmd, hI, hkei, hkp, hlim]
  norm_num

/-- C4 (amended): under a constant nonzero error `e` for `n` calls with the
clamp condition never holding, and with the stored previous error already
equal to `e` before the first call, the integral term after the `n` calls is
exactly `m_I_0 + k_ei * 2 * e * n`. -/
theorem pid_integral_linear_ramp (c : PIDCoeffs) (st : PIDState) (e : ℚ)
    (n : ℕ) (he : e ≠ 0) (hprev : st.prev_error = e)
    (hnoclamp : ∀ k, k < n → ¬clampCond c (pidIterateConst c st e k) e) :
    (pidIterateConst c st e n).integral_term =
      st.integral_term + c.k_ei * 2 * e * (n : ℚ) := by
  revert hnoclamp
  induction n with
  | zero =>
    intro _
    simp [pidIterateConst]
  | succ m ih =>
    intro hnoclamp
    have hprev_m : (pidIterateConst c st e m).prev_error = e := by
      cases m with
      | zero => exact hprev
      | succ k => exact pidUpdate_prev_error c (pidIterateConst c st e k) e
    have hstep : (pidIterateConst c st e (m + 1)).integral_term =
        (pidIterateConst c st e m).integral_term + c.k_ei * (e + e) := by
      have h := pidUpdate_integral c (pidIterateConst c st e m) e
      rw [if_neg (hnoclamp m (Nat.lt_succ_self m)), hprev_m] at h
      exact h
    rw [hstep, ih (fun k hk => hnoclamp k (Nat.lt_succ_of_lt hk))]
    push_cast
    ring

/-- Configuration used in the counterexample to the unamended C4: pure
integral action (`kp = 0`, `k_ei = 1`) and a large output limit so the
clamp condition never holds. -/
def pureIntegralCoeffs : PIDCoeffs := ⟨0, 1, 0, 0, 100⟩

/-- Zero starting state: in particular the stored previous error is `0`. -/
def zeroState : PIDState := ⟨0, 0, 0⟩

/-- Counterexample to C4 as stated: one call with constant error `1` from a
state whose stored previous error is `0`.  The clamp condition never holds
during the call, yet the integral term becomes `k_ei * (1 + 0) = 1`, not
`m_I_0 + k_ei * 2 * 1 * 1 = 2` — the first trapezoid mixes in the older
stored error. -/
theorem pid_integral_linear_ramp_cex :
    (∀ k, k < 1 →
        ¬clampCond pureIntegralCoeffs
          (pidIterateConst pureIntegralCoeffs zeroState 1 k) 1) ∧
      (pidIterateConst pureIntegralCoeffs zeroState 1 1).integral_term ≠
        zeroState.integral_term +
          pureIntegralCoeffs.k_ei * 2 * 1 * ((1 : ℕ) : ℚ) := by
  constructor
  · intro k hk
    have hk0 : k = 0 := by omega
    subst hk0
    norm_num [clampCond, mTentative, mDeriv, qabs, qsign, pidIterateConst,
      pureIntegralCoeffs, zeroState]
  · norm_num [pidIterateConst, pidUpdate, clampCond, mTentative, mDeriv,
      qabs, qsign, pureIntegralCoeffs, zeroState]

/-- Witness for the amended C4: pure integral action, previous error already
`1`, two calls with constant error `1` and no clamping; the integral ramps to
`1 * 2 * 1 * 2 = 4`. -/
theorem pid_integral_linear_ramp_witness :
    (pidIterateConst pureIntegralCoeffs ⟨0, 0, 1⟩ 1 2).integral_term =
      (PIDState.mk 0 0 1).integral_term +
        pureIntegralCoeffs.k_ei * 2 * 1 * ((2 : ℕ) : ℚ) :=
  pid_integral_linear_ramp pureIntegralCoeffs ⟨0, 0, 1⟩ 1 2 (by norm_num) rfl
    (by
      intro k hk
      interval_cases k <;>
        norm_num [clampCond, mTentative, mDeriv, qabs, qsign, pidIterateConst,
          pidUpdate, pureIntegralCoeffs])

/-- C7: construction is rejected with an invalid-configuration error, before
any coefficient is computed, whenever `T = 0`, `wp = 0`, `τ = 0` or
`output_limit ≤ 0`. -/
theorem config_rejects_degenerate (kp ki kd wp T lim tau : ℚ) :
    ((T = 0 ∨ wp = 0 ∨ lim ≤ 0) →
        mkPIDConfig kp ki kd wp T lim = .error .invalidConfiguration) ∧
      ((T = 0 ∨ tau = 0) →
        mkPreFilterConfig tau T = .error .invalidConfiguration) := by
  constructor
  · intro h
    have hcond : T ≤ 0 ∨ wp ≤ 0 ∨ lim ≤ 0 := by
      rcases h with h | h | h
      · exact Or.inl h.le
      · exact Or.inr (Or.inl h.le)
      · exact Or.inr (Or.inr h)
    unfold mkPIDConfig
    rw [if_pos hcond]
  · intro h
    have hcond : T ≤ 0 ∨ tau ≤ 0 := by
      rcases h with h | h
      · exact Or.inl h.le
      · exact Or.inr h.le
    unfold mkPreFilterConfig
    rw [if_pos hcond]

/-- Witness for C7 at `T = 0` (all other parameters positive). -/
theorem config_rejects_degenerate_witness :
    mkPIDConfig 1 1 1 1 0 1 = .error .invalidConfiguration ∧
      mkPreFilterConfig 1 0 = .error .invalidConfiguration :=
  ⟨(config_rejects_degenerate 1 1 1 1 0 1 1).1 (Or.inl rfl),
   (config_rejects_degenerate 1 1 1 1 0 1 1).2 (Or.inl rfl)⟩

/-- C8: both updates are deterministic — two runs from equal internal state
with equal inputs return the same output and the same committed state. -/
theorem updates_deterministic (c : PIDCoeffs) (cf : PreFilterCoeffs)
    (st₁ st₂ : PIDState) (f₁ f₂ : PreFilterState) (e₁ e₂ x₁ x₂ : ℚ)
    (hst : st₁ = st₂) (he : e₁ = e₂) (hf : f₁ = f₂) (hx : x₁ = x₂) :
    pidUpdate c st₁ e₁ = pidUpdate c st₂ e₂ ∧
      preFilterUpdate cf f₁ x₁ = preFilterUpdate cf f₂ x₂ := by
  subst hst
  subst he
  subst hf
  subst hx
  exact ⟨rfl, rfl⟩

/-- Witness for C8 at a concrete state and input. -/
theorem updates_deterministic_witness :
    pidUpdate ⟨1, 1, 0, 0, 100⟩ ⟨0, 0, 0⟩ 2 =
        pidUpdate ⟨1, 1, 0, 0, 100⟩ ⟨0, 0, 0⟩ 2 ∧
      preFilterUpdate ⟨1, 0⟩ ⟨0, 0⟩ 3 = preFilterUpdate ⟨1, 0⟩ ⟨0, 0⟩ 3 :=
  updates_deterministic ⟨1, 1, 0, 0, 100⟩ ⟨1, 0⟩ ⟨0, 0, 0⟩ ⟨0, 0, 0⟩ ⟨0, 0⟩
    ⟨0, 0⟩ 2 2 3 3 rfl rfl rfl rfl

/-- A convex-combination step with weights `a`, `b`, `b` summing to one
stays inside the interval `[lo, hi]`. -/
theorem convex_step_bounds (a b y u v lo hi : ℚ) (ha : 0 ≤ a) (hb : 0 ≤ b)
    (hab : a + 2 * b = 1) (hy : lo ≤ y) (hy' : y ≤ hi) (hu : lo ≤ u)
    (hu' : u ≤ hi) (hv : lo ≤ v) (hv' : v ≤ hi) :
    lo ≤ y * a + b * (u + v) ∧ y * a + b * (u + v) ≤ hi := by
  have hhi : hi * a + b * (hi + hi) = hi := by
    have h := hab
    have hexp : hi * a + b * (hi + hi) = (a + 2 * b) * hi := by ring
    rw [hexp, h, one_mul]
  have hlo' : lo * a + b * (lo + lo) = lo := by
    have h := hab
    have hexp : lo * a + b * (lo + lo) = (a + 2 * b) * lo := by ring
    rw [hexp, h, one_mul]
  constructor
  · calc lo = lo * a + b * (lo + lo) := hlo'.symm
      _ ≤ y * a + b * (u + v) := by
          have h1 : lo * a ≤ y * a := mul_le_mul_of_nonneg_right hy ha
          have h2 : b * (lo + lo) ≤ b * (u + v) :=
            mul_le_mul_of_nonneg_left (add_le_add hu hv) hb
          linarith
  · calc y * a + b * (u + v) ≤ hi * a + b * (hi + hi) := by
          have h1 : y * a ≤ hi * a := mul_le_mul_of_nonneg_right hy' ha
          have h2 : b * (u + v) ≤ b * (hi + hi) :=
            mul_le_mul_of_nonneg_left (add_le_add hu' hv') hb
          linarith
      _ = hi := hhi

/-- C10: for `0 < T < 2τ` the notebook coefficients are nonnegative and
satisfy `kmlp + 2*kelp = 1`, so each loop output is a convex combination of
the previous output and the two neighbouring inputs; hence if every input
and the zero seed lie in `[lo, hi]`, every output stays in `[lo, hi]`. -/
theorem notebook_filter_stays_in_interval (T tau lo hi : ℚ) (x : ℕ → ℚ)
    (hT : 0 < T) (hTtau : T < 2 * tau)
    (hx : ∀ i, lo ≤ x i ∧ x i ≤ hi) (hlo : lo ≤ 0) (hhi : 0 ≤ hi) :
    0 ≤ kmlp T tau ∧ 0 ≤ kelp T tau ∧ kmlp T tau + 2 * kelp T tau = 1 ∧
      ∀ i, lo ≤ notebookY (kmlp T tau) (kelp T tau) x i ∧
        notebookY (kmlp T tau) (kelp T tau) x i ≤ hi := by
  have hden : 0 < T + 2 * tau := by linarith
  have ha : 0 ≤ kmlp T tau := div_nonneg (by linarith) hden.le
  have hb : 0 ≤ kelp T tau := div_nonneg hT.le hden.le
  have hab : kmlp T tau + 2 * kelp T tau = 1 := by
    unfold kmlp kelp
    field_simp
    ring
  refine ⟨ha, hb, hab, ?_⟩
  intro i
  induction i with
  | zero => exact ⟨hlo, hhi⟩
  | succ m ih =>
    exact convex_step_bounds (kmlp T tau) (kelp T tau)
      (notebookY (kmlp T tau) (kelp T tau) x m) (x (m + 1)) (x m) lo hi
      ha hb hab ih.1 ih.2 (hx (m + 1)).1 (hx (m + 1)).2 (hx m).1 (hx m).2

/-- Witness for C10 at the notebook's `T = 1/10000`, `τ = 1/4`, the constant
input `1` and the interval `[0, 1]`, evaluated at sample 3. -/
theorem notebook_filter_stays_in_interval_witness :
    0 ≤ notebookY (kmlp (1/10000) (1/4)) (kelp (1/10000) (1/4))
        (fun _ => 1) 3 ∧
      notebookY (kmlp (1/10000) (1/4)) (kelp (1/10000) (1/4))
        (fun _ => 1) 3 ≤ 1 :=
  (notebook_filter_stays_in_interval (1/10000) (1/4) 0 1 (fun _ => 1)
    (by norm_num) (by norm_num) (fun i => ⟨by norm_num, by norm_num⟩)
    (by norm_num) (by norm_num)).2.2.2 3

end DiscreteImpl
